import Mathlib

/-!
Verification of the mzXML peak-decoding and record-assembly core
(`pyteomics/mzxml.py`).

Modelling conventions:
* Python byte strings and text strings are modelled as lists of natural
  numbers (the code points / byte values).
* IEEE-754 values produced by the bit-cast in the source are represented
  by their 32-bit bit patterns; `float32Val` maps a finite bit pattern to
  the exact rational it denotes.
* Python exceptions raised along the way are modelled by `PyError`; the
  names follow the error vocabulary of the design document
  (InvalidEncoding for binascii.Error, InvalidCompression for zlib.error,
  MalformedPayload for struct.error) plus the concrete Python exception
  kinds that the assembly code can raise.
* `zlib.decompress` is an external library call; the decoder is therefore
  parametrised by an abstract decompression function, and theorems that
  need its behaviour take the inverse property as a hypothesis.
-/

namespace Mzxml

/-- Errors that the modelled code can raise.  The first three follow the
naming of the design document: `invalidEncoding` is binascii.Error from
base64 decoding, `invalidCompression` is zlib.error, `malformedPayload`
is struct.error from struct.unpack.  The remaining constructors are the
Python exception kinds raised by the record-assembly code. -/
inductive PyError where
  | invalidEncoding
  | invalidCompression
  | malformedPayload
  | unicodeEncodeError
  | keyError
  | typeError
  | indexError
  | valueError
  | attributeError
deriving DecidableEq

/-- Equality of decode results is decidable (used to evaluate the
decoder on concrete inputs inside proofs). -/
instance {ε α : Type} [DecidableEq ε] [DecidableEq α] : DecidableEq (Except ε α) := by
  intro a b
  cases a with
  | error e1 =>
      cases b with
      | error e2 =>
          cases decEq e1 e2 with
          | isTrue h => exact isTrue (by rw [h])
          | isFalse h => exact isFalse (by intro hc; cases hc; exact h rfl)
      | ok v2 => exact isFalse (by intro hc; cases hc)
  | ok v1 =>
      cases b with
      | error e2 => exact isFalse (by intro hc; cases hc)
      | ok v2 =>
          cases decEq v1 v2 with
          | isTrue h => exact isTrue (by rw [h])
          | isFalse h => exact isFalse (by intro hc; cases hc; exact h rfl)

/-- The base64 decode table of CPython binascii: maps a byte to its
6-bit value when it is an alphabet character, none otherwise. -/
def decodeChar (c : Nat) : Option Nat :=
  if 65 ≤ c ∧ c ≤ 90 then some (c - 65)
  else if 97 ≤ c ∧ c ≤ 122 then some (c - 97 + 26)
  else if 48 ≤ c ∧ c ≤ 57 then some (c - 48 + 52)
  else if c = 43 then some 62
  else if c = 47 then some 63
  else none

/-- The base64 alphabet: 6-bit value to character code. -/
def encodeChar (v : Nat) : Nat :=
  if v < 26 then 65 + v
  else if v < 52 then 97 + (v - 26)
  else if v < 62 then 48 + (v - 52)
  else if v = 62 then 43
  else 47

/-- CPython binascii.a2b_base64 in its default (non-strict) mode, as
called by base64.b64decode: a state machine over the input bytes with
the position inside the current 4-character quantum, the pending bits,
and the number of padding characters seen.  Characters outside the
alphabet are discarded; `=` (code 61) at quantum position 0 or 1 is
ignored, and at position 2 or 3 it terminates the decode once the
quantum is completed by padding; input ending mid-quantum raises
binascii.Error (modelled as `invalidEncoding`). -/
def a2b : List Nat → Nat → Nat → Nat → Except PyError (List Nat)
  | [], quad, _, _ =>
      if quad = 0 then .ok [] else .error .invalidEncoding
  | c :: rest, quad, left, pads =>
      if c = 61 then
        if 2 ≤ quad ∧ 4 ≤ quad + (pads + 1) then .ok []
        else if 2 ≤ quad then a2b rest quad left (pads + 1)
        else a2b rest quad left pads
      else
        match decodeChar c with
        | none => a2b rest quad left pads
        | some v =>
            if quad = 0 then a2b rest 1 v 0
            else if quad = 1 then
              Except.map (fun out => (left * 4 + v / 16) :: out) (a2b rest 2 (v % 16) 0)
            else if quad = 2 then
              Except.map (fun out => (left * 16 + v / 4) :: out) (a2b rest 3 (v % 4) 0)
            else
              Except.map (fun out => (left * 64 + v) :: out) (a2b rest 0 0 0)

/-- base64.b64decode on a byte string (default validate := false). -/
def b64decode (content : List Nat) : Except PyError (List Nat) :=
  a2b content 0 0 0

/-- Standard base64 of a byte sequence (RFC 4648).  This is the
encoding side used by the testable properties of the design document;
the source file itself only decodes. -/
def b64encode : List Nat → List Nat
  | a :: b :: c :: rest =>
      encodeChar (a / 4) :: encodeChar (a % 4 * 16 + b / 16) ::
      encodeChar (b % 16 * 4 + c / 64) :: encodeChar (c % 64) :: b64encode rest
  | [a, b] =>
      [encodeChar (a / 4), encodeChar (a % 4 * 16 + b / 16), encodeChar (b % 16 * 4), 61, 61]
  | [a] =>
      [encodeChar (a / 4), encodeChar (a % 4 * 16), 61, 61]
  | [] => []

/-- struct.unpack with a big-endian 4-byte unsigned format: reads the
byte list in 4-byte groups, each group a big-endian 32-bit integer.
Only invoked on buffers whose length is an exact multiple of 4. -/
def unpackWords : List Nat → List Nat
  | b0 :: b1 :: b2 :: b3 :: rest =>
      (b0 * 2 ^ 24 + b1 * 2 ^ 16 + b2 * 2 ^ 8 + b3) :: unpackWords rest
  | _ => []

/-- Big-endian packing of 32-bit words into bytes (the encoding side of
the round-trip property). -/
def packBE32 : List Nat → List Nat
  | [] => []
  | w :: ws =>
      w / 2 ^ 24 % 256 :: w / 2 ^ 16 % 256 :: w / 2 ^ 8 % 256 :: w % 256 :: packBE32 ws

/-- The de-interleaving loop of `_decode_peaks`: the counter i starts at
0; even positions go to the m/z list, odd positions to the intensity
list. -/
def deinterleave : List Nat → Nat → List Nat × List Nat
  | [], _ => ([], [])
  | d :: rest, i =>
      let p := deinterleave rest (i + 1)
      if i % 2 = 0 then (d :: p.1, p.2) else (p.1, d :: p.2)

/-- Specification-side de-interleave: even-indexed elements (0-based)
and odd-indexed elements of a list. -/
def splitParity : List Nat → List Nat × List Nat
  | [] => ([], [])
  | a :: l => ((a :: (splitParity l).2), (splitParity l).1)

/-- Lines 33 to 45 of the source: width is the float-division
`len(data) / prec` truncated by the %d format; struct.unpack with the
format string built from width and the letter L (4 bytes each,
regardless of prec) demands that the buffer length equal width * 4 and
raises struct.error otherwise; each unpacked 32-bit integer is bit-cast
to a 32-bit float (represented here by its bit pattern) and the values
are de-interleaved. -/
def decode_buffer (prec : Nat) (data : List Nat) : Except PyError (List Nat × List Nat) :=
  let width := data.length / prec
  if data.length = width * 4 then
    .ok (deinterleave (unpackWords data) 0)
  else .error .malformedPayload

/-- A Python value appearing in an assembled record: a text string (as
its code points), an integer, a float (exact rational), a boolean, a
numeric array (of 32-bit float bit patterns), a nested record, or a
list of values. -/
inductive Value where
  | str (s : List Nat)
  | int (z : ℤ)
  | float (q : ℚ)
  | bool (b : Bool)
  | arr (ws : List Nat)
  | dict (fields : List (String × Value))
  | list (items : List Value)

/-- A record under assembly: an insertion-ordered string-keyed map,
modelling a Python dict. -/
abbrev Info := List (String × Value)

/-- dict.get: first binding of the key, if any. -/
def dget : Info → String → Option Value
  | [], _ => none
  | (k1, v) :: rest, k => if k1 = k then some v else dget rest k

/-- dict item assignment: replace in place if the key exists, append
otherwise (Python dicts keep insertion order). -/
def setItem : Info → String → Value → Info
  | [], k, v => [(k, v)]
  | (k1, v1) :: rest, k, v =>
      if k1 = k then (k, v) :: rest else (k1, v1) :: setItem rest k v

/-- dict.pop: the map without the key. -/
def delKey : Info → String → Info
  | [], _ => []
  | (k1, v1) :: rest, k => if k1 = k then rest else (k1, v1) :: delKey rest k

/-- Code points of a string literal. -/
def strCodes (s : String) : List Nat :=
  s.data.map Char.toNat

/-- Lines 27 and 28 of the source: when the compressionType entry of
the info dict equals the string zlib, the buffer is replaced by
`zlib.decompress(data)` (the external zlib call is the `decompress`
parameter; zlib.error is modelled as `invalidCompression`); any other
value, or an absent entry, leaves the buffer untouched. -/
def inflate (decompress : List Nat → Except Unit (List Nat))
    (info : Info) (data : List Nat) : Except PyError (List Nat) :=
  match dget info "compressionType" with
  | some (Value.str s) =>
      if s = strCodes ("zlib") then
        match decompress data with
        | .ok d => .ok d
        | .error _ => .error .invalidCompression
      else .ok data
  | _ => .ok data

/-- Lines 29 to 32 of the source: prec is 4 when the precision entry of
the info dict equals the string 32 and 8 for any other value;
subscripting a dict without the key raises KeyError. -/
def precChoice (info : Info) : Except PyError Nat :=
  match dget info "precision" with
  | none => .error .keyError
  | some pv =>
      .ok (match pv with
           | Value.str s => if s = strCodes ("32") then 4 else 8
           | _ => 8)

/-- Lines 25 to 45 of the source, `_decode_peaks(info, peaks_data)`:
ascii-encode the text (UnicodeEncodeError when a code point is 128 or
more), base64-decode it, zlib-decompress when the metadata demands it,
pick the element width from the precision metadata, and unpack the
buffer.  The result pair holds the bit patterns of the decoded 32-bit
floats. -/
def decode_peaks (decompress : List Nat → Except Unit (List Nat))
    (info : Info) (peaks_data : List Nat) : Except PyError (List Nat × List Nat) :=
  if ∀ c ∈ peaks_data, c < 128 then
    match b64decode peaks_data with
    | .error e => .error e
    | .ok data0 =>
        match inflate decompress info data0 with
        | .error e => .error e
        | .ok data =>
            match precChoice info with
            | .error e => .error e
            | .ok prec => decode_buffer prec data
  else .error .unicodeEncodeError

/-- The exact rational value denoted by a finite IEEE-754 binary32 bit
pattern (none for infinities and NaNs). -/
def float32Val (w : Nat) : Option ℚ :=
  let s : ℕ := w / 2 ^ 31 % 2
  let e : ℕ := w / 2 ^ 23 % 2 ^ 8
  let f : ℕ := w % 2 ^ 23
  if e = 255 then none
  else
    let mag : ℚ :=
      if e = 0 then (f : ℚ) * 2 / 2 ^ 150
      else ((2 ^ 23 + f : ℕ) : ℚ) * 2 ^ e / 2 ^ 150
    some (if s = 1 then -mag else mag)

/-- Python str.strip(chars): remove from both ends every character that
belongs to the given set. -/
def stripChars (cs : List Nat) (s : List Nat) : List Nat :=
  (((s.dropWhile (· ∈ cs)).reverse.dropWhile (· ∈ cs))).reverse

/-- Is the code point an ascii digit. -/
def isDigit (c : Nat) : Bool :=
  decide (48 ≤ c ∧ c ≤ 57)

/-- Value of a nonempty ascii digit string. -/
def digitsToNat (ds : List Nat) : Nat :=
  ds.foldl (fun a c => a * 10 + (c - 48)) 0

/-- The Python float() builtin restricted to the plain decimal fragment
(optional sign, integer digits, optional fractional digits): returns
the exact rational the literal denotes, none on anything else
(ValueError).  The source only applies it to stripped retention-time
strings and schema-typed attribute text. -/
def pyFloat (s : List Nat) : Option ℚ :=
  let signAndRest : ℚ × List Nat :=
    match s with
    | 43 :: r => (1, r)
    | 45 :: r => (-1, r)
    | r => (1, r)
  let sgn := signAndRest.1
  let rest := signAndRest.2
  let intPart := rest.takeWhile isDigit
  let rest2 := rest.dropWhile isDigit
  match rest2 with
  | [] => if intPart = [] then none else some (sgn * (digitsToNat intPart : ℚ))
  | 46 :: frac =>
      if frac.all isDigit ∧ ¬(intPart = [] ∧ frac = []) then
        some (sgn * ((digitsToNat intPart : ℚ) + (digitsToNat frac : ℚ) / (10 : ℚ) ^ frac.length))
      else none
  | _ => none

/-- The Python int() builtin restricted to decimal strings with an
optional sign. -/
def pyInt (s : List Nat) : Option ℤ :=
  let signAndRest : ℤ × List Nat :=
    match s with
    | 43 :: r => (1, r)
    | 45 :: r => (-1, r)
    | r => (1, r)
  if signAndRest.2 ≠ [] ∧ signAndRest.2.all isDigit then
    some (signAndRest.1 * (digitsToNat signAndRest.2 : ℤ))
  else none

/-- Lines 108 to 127 of the source, the post-processing part of
`MzXML._get_info_smart` applied to the raw record dict:
1. when a num field exists, set id to the same value (non-destructive);
2. when a peaks field exists:
   - a dict value models `info.pop('peaks')[0]` subscripting a dict by
     the integer 0, which raises KeyError;
   - an empty list raises IndexError at `[0]`;
   - a nonempty list takes its first item, and the try block copies its
     m/z array and intensity array entries up; the except KeyError
     branch calls np.array() with no arguments, which itself raises
     TypeError (np.array requires its object argument), so a missing
     entry fails the assembly; a non-dict first item raises TypeError
     at the string subscript;
   - any other value (raw text) is decoded by `_decode_peaks` and the
     two arrays stored; `info.pop('peaks')` runs before the call, so
     the decoder sees the dict without the peaks key;
3. when a retentionTime field exists, its string value is stripped of
   the characters P, T, S (codes 80, 84, 83) at both ends and parsed by
   float() (ValueError on failure; a non-string value has no strip
   attribute, AttributeError). -/
def get_info_smart_post (decompress : List Nat → Except Unit (List Nat))
    (info : Info) : Except PyError Info :=
  let info1 : Info :=
    match dget info "num" with
    | some v => setItem info "id" v
    | none => info
  let afterPeaks : Except PyError Info :=
    match dget info1 "peaks" with
    | none => .ok info1
    | some pv =>
        let info2 := delKey info1 "peaks"
        match pv with
        | Value.dict _ => .error .keyError
        | Value.list [] => .error .indexError
        | Value.list (first :: _) =>
            (match first with
             | Value.dict fs =>
                 (match dget fs "m/z array" with
                  | some mz =>
                      (match dget fs "intensity array" with
                       | some ia =>
                           .ok (setItem (setItem info2 "m/z array" mz) "intensity array" ia)
                       | none => .error .typeError)
                  | none => .error .typeError)
             | _ => .error .typeError)
        | Value.str s =>
            (match decode_peaks decompress info2 s with
             | .ok p =>
                 .ok (setItem (setItem info2 "m/z array" (Value.arr p.1))
                       "intensity array" (Value.arr p.2))
             | .error e => .error e)
        | _ => .error .attributeError
  match afterPeaks with
  | .error e => .error e
  | .ok info3 =>
      match dget info3 "retentionTime" with
      | none => .ok info3
      | some (Value.str s) =>
          (match pyFloat (stripChars [80, 84, 83] s) with
           | some q => .ok (setItem info3 "retentionTime" (Value.float q))
           | none => .error .valueError)
      | some _ => .error .attributeError

/-! ### Helper lemmas about the base64 state machine -/

theorem dec_enc : ∀ v : Nat, v < 64 → decodeChar (encodeChar v) = some v := by
  decide

theorem enc_ne_61 : ∀ v : Nat, v < 64 → encodeChar v ≠ 61 := by
  decide

theorem enc_lt_128 (v : Nat) : encodeChar v < 128 := by
  unfold encodeChar
  split
  · omega
  · split
    · omega
    · split
      · omega
      · split <;> omega

theorem a2b_step0 {c v : Nat} (hne : c ≠ 61) (hv : decodeChar c = some v)
    (rest : List Nat) (left pads : Nat) :
    a2b (c :: rest) 0 left pads = a2b rest 1 v 0 := by
  simp [a2b, hne, hv]

theorem a2b_step1 {c v : Nat} (hne : c ≠ 61) (hv : decodeChar c = some v)
    (rest : List Nat) (left pads : Nat) :
    a2b (c :: rest) 1 left pads =
      Except.map (fun out => (left * 4 + v / 16) :: out) (a2b rest 2 (v % 16) 0) := by
  simp [a2b, hne, hv]

theorem a2b_step2 {c v : Nat} (hne : c ≠ 61) (hv : decodeChar c = some v)
    (rest : List Nat) (left pads : Nat) :
    a2b (c :: rest) 2 left pads =
      Except.map (fun out => (left * 16 + v / 4) :: out) (a2b rest 3 (v % 4) 0) := by
  simp [a2b, hne, hv]

theorem a2b_step3 {c v : Nat} (hne : c ≠ 61) (hv : decodeChar c = some v)
    (rest : List Nat) (left pads : Nat) :
    a2b (c :: rest) 3 left pads =
      Except.map (fun out => (left * 64 + v) :: out) (a2b rest 0 0 0) := by
  simp [a2b, hne, hv]

theorem a2b_quad (a b c : Nat) (rest : List Nat)
    (ha : a < 256) (hb : b < 256) (hc : c < 256) :
    a2b (encodeChar (a / 4) :: encodeChar (a % 4 * 16 + b / 16) ::
         encodeChar (b % 16 * 4 + c / 64) :: encodeChar (c % 64) :: rest) 0 0 0 =
      Except.map (fun out => a :: b :: c :: out) (a2b rest 0 0 0) := by
  have h1 : a / 4 < 64 := by omega
  have h2 : a % 4 * 16 + b / 16 < 64 := by omega
  have h3 : b % 16 * 4 + c / 64 < 64 := by omega
  have h4 : c % 64 < 64 := by omega
  rw [a2b_step0 (enc_ne_61 _ h1) (dec_enc _ h1)]
  rw [a2b_step1 (enc_ne_61 _ h2) (dec_enc _ h2)]
  rw [a2b_step2 (enc_ne_61 _ h3) (dec_enc _ h3)]
  rw [a2b_step3 (enc_ne_61 _ h4) (dec_enc _ h4)]
  cases hres : a2b rest 0 0 0 with
  | error e => simp [Except.map]
  | ok out =>
      simp only [Except.map]
      have e1 : a / 4 * 4 + (a % 4 * 16 + b / 16) / 16 = a := by omega
      have e2 : (a % 4 * 16 + b / 16) % 16 * 16 + (b % 16 * 4 + c / 64) / 4 = b := by omega
      have e3 : (b % 16 * 4 + c / 64) % 4 * 64 + c % 64 = c := by omega
      rw [e1, e2, e3]

theorem b64_roundtrip : ∀ bs : List Nat, (∀ b ∈ bs, b < 256) →
    a2b (b64encode bs) 0 0 0 = .ok bs
  | [], _ => by simp [b64encode, a2b]
  | [a], h => by
      have ha : a < 256 := h a (by simp)
      have h1 : a / 4 < 64 := by omega
      have h2 : a % 4 * 16 < 64 := by omega
      show a2b (encodeChar (a / 4) :: encodeChar (a % 4 * 16) :: 61 :: 61 :: []) 0 0 0 = _
      rw [a2b_step0 (enc_ne_61 _ h1) (dec_enc _ h1)]
      rw [a2b_step1 (enc_ne_61 _ h2) (dec_enc _ h2)]
      simp only [a2b, Except.map]
      norm_num
      omega
  | [a, b], h => by
      have ha : a < 256 := h a (by simp)
      have hb : b < 256 := h b (by simp)
      have h1 : a / 4 < 64 := by omega
      have h2 : a % 4 * 16 + b / 16 < 64 := by omega
      have h3 : b % 16 * 4 < 64 := by omega
      show a2b (encodeChar (a / 4) :: encodeChar (a % 4 * 16 + b / 16) ::
            encodeChar (b % 16 * 4) :: 61 :: 61 :: []) 0 0 0 = _
      rw [a2b_step0 (enc_ne_61 _ h1) (dec_enc _ h1)]
      rw [a2b_step1 (enc_ne_61 _ h2) (dec_enc _ h2)]
      rw [a2b_step2 (enc_ne_61 _ h3) (dec_enc _ h3)]
      simp only [a2b, Except.map]
      norm_num
      constructor <;> omega
  | a :: b :: c :: rest, h => by
      have hrest : ∀ x ∈ rest, x < 256 := fun x hx => h x (by simp [hx])
      show a2b (encodeChar (a / 4) :: encodeChar (a % 4 * 16 + b / 16) ::
            encodeChar (b % 16 * 4 + c / 64) :: encodeChar (c % 64) :: b64encode rest) 0 0 0 = _
      rw [a2b_quad a b c _ (h a (by simp)) (h b (by simp)) (h c (by simp))]
      rw [b64_roundtrip rest hrest]
      simp [Except.map]

theorem b64encode_lt_128 : ∀ bs : List Nat, ∀ x ∈ b64encode bs, x < 128
  | [] => by simp [b64encode]
  | [a] => by
      simp only [b64encode, List.mem_cons, List.not_mem_nil, or_false]
      rintro x (rfl | rfl | rfl | rfl) <;> first | exact enc_lt_128 _ | omega
  | [a, b] => by
      simp only [b64encode, List.mem_cons, List.not_mem_nil, or_false]
      rintro x (rfl | rfl | rfl | rfl | rfl) <;> first | exact enc_lt_128 _ | omega
  | a :: b :: c :: rest => by
      simp only [b64encode, List.mem_cons]
      rintro x (rfl | rfl | rfl | rfl | hx)
      · exact enc_lt_128 _
      · exact enc_lt_128 _
      · exact enc_lt_128 _
      · exact enc_lt_128 _
      · exact b64encode_lt_128 rest x hx

/-! ### Helper lemmas about packing and de-interleaving -/

theorem unpackWords_packBE32 : ∀ ws : List Nat, (∀ w ∈ ws, w < 2 ^ 32) →
    unpackWords (packBE32 ws) = ws := by
  intro ws
  induction ws with
  | nil => intro _; rfl
  | cons w ws ih =>
      intro h
      have hw : w < 2 ^ 32 := h w (by simp)
      simp only [packBE32, unpackWords]
      rw [ih (fun x hx => h x (by simp [hx]))]
      congr 1
      omega

theorem packBE32_length : ∀ ws : List Nat, (packBE32 ws).length = 4 * ws.length := by
  intro ws
  induction ws with
  | nil => rfl
  | cons w ws ih => simp [packBE32, ih]; omega

theorem packBE32_lt_256 : ∀ ws : List Nat, ∀ b ∈ packBE32 ws, b < 256 := by
  intro ws
  induction ws with
  | nil => simp [packBE32]
  | cons w ws ih =>
      simp only [packBE32, List.mem_cons]
      rintro b (rfl | rfl | rfl | rfl | hb)
      · omega
      · omega
      · omega
      · omega
      · exact ih b hb

theorem deinterleave_eq_splitParity : ∀ (l : List Nat) (i : Nat),
    deinterleave l i =
      if i % 2 = 0 then splitParity l else ((splitParity l).2, (splitParity l).1) := by
  intro l
  induction l with
  | nil => intro i; simp [deinterleave, splitParity]
  | cons d rest ih =>
      intro i
      rcases Nat.mod_two_eq_zero_or_one i with h | h
      · have hpar : (i + 1) % 2 = 1 := by omega
        simp [deinterleave, splitParity, ih (i + 1), h, hpar]
      · have hpar : (i + 1) % 2 = 0 := by omega
        simp [deinterleave, splitParity, ih (i + 1), h, hpar]

theorem decode_buffer_pack (ws : List Nat) (h : ∀ w ∈ ws, w < 2 ^ 32) :
    decode_buffer 4 (packBE32 ws) = .ok (splitParity ws) := by
  unfold decode_buffer
  rw [packBE32_length]
  have hlen : 4 * ws.length / 4 = ws.length := by omega
  rw [hlen]
  rw [if_pos (by omega)]
  rw [unpackWords_packBE32 ws h, deinterleave_eq_splitParity]
  simp

/-! ### Pipeline lemmas for the decoder -/

theorem inflate_of_not_zlib (d : List Nat → Except Unit (List Nat)) (info : Info)
    (data : List Nat)
    (h : ∀ s, dget info "compressionType" = some (Value.str s) → s ≠ strCodes ("zlib")) :
    inflate d info data = .ok data := by
  unfold inflate
  cases hc : dget info "compressionType" with
  | none => rfl
  | some v =>
      cases v with
      | str s => simp [h s hc]
      | int z => rfl
      | float q => rfl
      | bool b => rfl
      | arr ws => rfl
      | dict fields => rfl
      | list items => rfl

theorem inflate_zlib (d : List Nat → Except Unit (List Nat)) (info : Info)
    (data out : List Nat)
    (hc : dget info "compressionType" = some (Value.str (strCodes ("zlib"))))
    (hd : d data = .ok out) :
    inflate d info data = .ok out := by
  unfold inflate
  rw [hc]
  simp [hd]

theorem a2b_skip : ∀ (cs : List Nat) (q l p : Nat),
    (∀ c ∈ cs, decodeChar c = none ∧ c ≠ 61) → a2b cs q l p = a2b [] q l p := by
  intro cs
  induction cs with
  | nil => intro q l p _; rfl
  | cons c rest ih =>
      intro q l p h
      have hc := h c (by simp)
      rw [show a2b (c :: rest) q l p = a2b rest q l p by simp [a2b, hc.1, hc.2]]
      exact ih q l p (fun x hx => h x (by simp [hx]))

theorem decode_peaks_encode (d : List Nat → Except Unit (List Nat)) (info : Info)
    (bs data : List Nat) (hb : ∀ b ∈ bs, b < 256)
    (hinf : inflate d info bs = .ok data)
    (prec : Nat) (hprec : precChoice info = .ok prec) :
    decode_peaks d info (b64encode bs) = decode_buffer prec data := by
  simp only [decode_peaks, b64decode]
  rw [if_pos (b64encode_lt_128 bs)]
  simp only [b64_roundtrip bs hb, hinf, hprec]

/-! ### The decoder claims -/

/-- Claim C1: the specification demands that a payload whose precision
metadata declares 64-bit be read as 8-byte big-endian unsigned integers
bit-cast to 64-bit floats.  The source computes prec = 8 but then
builds the struct format from the letter L, which always reads 4-byte
units, so struct.unpack is asked for len/8 four-byte integers out of a
len-byte buffer and raises struct.error on every nonempty 64-bit
payload.  This theorem evaluates the code at the 16-byte payload of the
worked example with precision 64: the decode raises instead of
returning the two 64-bit floats the claim describes. -/
theorem claim_C1_precision64_raises :
    decode_peaks Except.ok [("precision", Value.str (strCodes ("64")))]
      (strCodes ("QskAAEEgAABDSEAAQKAAAA==")) = .error PyError.malformedPayload := by
  decide

/-- Claim C2: the base64 text of the big-endian 32-bit patterns of
100.5, 10.0, 200.25, 5.0 (in interleaved order) decodes at 32-bit
precision, uncompressed, to mzArray = [100.5, 200.25] and
intensityArray = [10.0, 5.0]: even-indexed decoded values form the m/z
array and odd-indexed values the intensity array. -/
theorem claim_C2_worked_example :
    strCodes ("QskAAEEgAABDSEAAQKAAAA==") =
      b64encode (packBE32 [0x42C90000, 0x41200000, 0x43484000, 0x40A00000])
    ∧ [0x42C90000, 0x41200000, 0x43484000, 0x40A00000].map float32Val =
        [some (100.5 : ℚ), some 10, some 200.25, some 5]
    ∧ decode_peaks Except.ok [("precision", Value.str (strCodes ("32")))]
        (strCodes ("QskAAEEgAABDSEAAQKAAAA==")) =
        .ok ([0x42C90000, 0x43484000], [0x41200000, 0x40A00000])
    ∧ [0x42C90000, 0x43484000].map float32Val = [some (100.5 : ℚ), some 200.25]
    ∧ [0x41200000, 0x40A00000].map float32Val = [some (10 : ℚ), some 5] := by
  refine ⟨by decide, ?_, by decide, ?_, ?_⟩ <;> norm_num [float32Val]

/-- Claim C3: encoding any sequence of 32-bit floats (given by their
bit patterns) as big-endian bytes plus base64, optionally compressed by
a zlib pair that inverts on this buffer, and decoding with matching
metadata, reproduces the sequence bit for bit, de-interleaved into the
two output arrays. -/
theorem claim_C3_roundtrip (ws : List Nat) (hw : ∀ w ∈ ws, w < 2 ^ 32)
    (compress : List Nat → List Nat) (decompress : List Nat → Except Unit (List Nat))
    (hcb : ∀ b ∈ compress (packBE32 ws), b < 256)
    (hinv : decompress (compress (packBE32 ws)) = .ok (packBE32 ws)) :
    decode_peaks decompress [("precision", Value.str (strCodes ("32")))]
        (b64encode (packBE32 ws)) = .ok (splitParity ws)
    ∧ decode_peaks decompress
        [("compressionType", Value.str (strCodes ("zlib"))),
         ("precision", Value.str (strCodes ("32")))]
        (b64encode (compress (packBE32 ws))) = .ok (splitParity ws) := by
  constructor
  · rw [decode_peaks_encode decompress [("precision", Value.str (strCodes ("32")))]
      (packBE32 ws) (packBE32 ws) (packBE32_lt_256 ws)
      (inflate_of_not_zlib _ _ _ (by intro s hs; simp [dget] at hs)) 4 rfl]
    exact decode_buffer_pack ws hw
  · rw [decode_peaks_encode decompress
      [("compressionType", Value.str (strCodes ("zlib"))),
       ("precision", Value.str (strCodes ("32")))]
      (compress (packBE32 ws)) (packBE32 ws) hcb
      (inflate_zlib _ _ _ _ rfl hinv) 4 rfl]
    exact decode_buffer_pack ws hw

/-- Witness for the round-trip claim at the two-point sequence
[100.5, 10.0] with the identity compression pair. -/
theorem claim_C3_roundtrip_witness :
    decode_peaks Except.ok [("precision", Value.str (strCodes ("32")))]
        (b64encode (packBE32 [0x42C90000, 0x41200000])) =
        .ok (splitParity [0x42C90000, 0x41200000])
    ∧ decode_peaks Except.ok
        [("compressionType", Value.str (strCodes ("zlib"))),
         ("precision", Value.str (strCodes ("32")))]
        (b64encode ((fun l => l) (packBE32 [0x42C90000, 0x41200000]))) =
        .ok (splitParity [0x42C90000, 0x41200000]) :=
  claim_C3_roundtrip [0x42C90000, 0x41200000] (by decide) (fun l => l) Except.ok
    (by decide) rfl

/-- Claim C4 counterexample: the text made of four question marks is
not valid base64 (every character is outside the alphabet), yet the
decode does not raise InvalidEncoding: base64.b64decode silently
discards the invalid characters and the decoder returns a pair of
empty arrays. -/
theorem claim_C4_counterexample :
    decode_peaks Except.ok [("precision", Value.str (strCodes ("32")))]
      (strCodes ("????")) = .ok ([], []) := by
  decide

/-- Claim C4 as amended: characters outside the base64 alphabet are
silently discarded, so a text of only invalid characters decodes to a
pair of empty arrays; the InvalidEncoding error is raised only when the
surviving alphabet characters end mid-quantum (incorrect padding), for
instance on a single alphabet character. -/
theorem claim_C4_amended :
    (∀ cs : List Nat, (∀ c ∈ cs, c < 128 ∧ decodeChar c = none ∧ c ≠ 61) →
      decode_peaks Except.ok [("precision", Value.str (strCodes ("32")))] cs = .ok ([], []))
    ∧ (∀ c v : Nat, c < 128 → decodeChar c = some v →
      decode_peaks Except.ok [("precision", Value.str (strCodes ("32")))] [c] =
        .error PyError.invalidEncoding) := by
  constructor
  · intro cs h
    simp only [decode_peaks, b64decode]
    rw [if_pos (fun c hc => (h c hc).1)]
    rw [a2b_skip cs 0 0 0 (fun c hc => ⟨(h c hc).2.1, (h c hc).2.2⟩)]
    rfl
  · intro c v hlt hv
    have hne : c ≠ 61 := by
      intro h61
      rw [h61] at hv
      simp [decodeChar] at hv
    simp only [decode_peaks, b64decode]
    rw [if_pos (by intro x hx; rw [List.mem_singleton] at hx; exact hx ▸ hlt)]
    rw [a2b_step0 hne hv]
    rfl

/-- Witness for the amended C4 claim: two exclamation marks (invalid
alphabet) decode silently to empty arrays, while a single alphabet
character raises InvalidEncoding. -/
theorem claim_C4_amended_witness :
    decode_peaks Except.ok [("precision", Value.str (strCodes ("32")))]
      (strCodes ("!!")) = .ok ([], [])
    ∧ decode_peaks Except.ok [("precision", Value.str (strCodes ("32")))] [81] =
        .error PyError.invalidEncoding :=
  ⟨claim_C4_amended.1 (strCodes ("!!")) (by decide),
   claim_C4_amended.2 81 16 (by decide) (by decide)⟩

/-- Claim C6 counterexample: a buffer of 12 zero bytes (three 32-bit
elements, an odd count, so not divisible by the element width times
two) does not raise MalformedPayload: it decodes to an m/z array of
two elements and an intensity array of one. -/
theorem claim_C6_counterexample :
    (12 / 4) % 2 ≠ 0
    ∧ decode_peaks Except.ok [("precision", Value.str (strCodes ("32")))]
        (strCodes ("AAAAAAAAAAAAAAAA")) = .ok ([0, 0], [0]) := by
  refine ⟨by decide, by decide⟩

/-- Claim C6 as amended: at 32-bit precision, decoding raises
MalformedPayload exactly when the buffer length is not divisible by
the element width 4; divisibility of the element count by 2 is not
checked, so an odd count decodes with an m/z array one element longer
than the intensity array. -/
theorem claim_C6_amended (data : List Nat) (h : data.length % 4 ≠ 0) :
    decode_buffer 4 data = .error PyError.malformedPayload := by
  unfold decode_buffer
  rw [if_neg (by omega)]

/-- Witness for the amended C6 claim at a three-byte buffer. -/
theorem claim_C6_amended_witness :
    ([0, 0, 0] : List Nat).length % 4 ≠ 0
    ∧ decode_buffer 4 [0, 0, 0] = .error PyError.malformedPayload :=
  ⟨by decide, claim_C6_amended [0, 0, 0] (by decide)⟩

/-- Claim C7: decoding the uncompressed encoding of a byte buffer with
no compression metadata and decoding its compressed encoding with zlib
metadata (same precision metadata, any precision value) produce the
same result, provided the decompressor inverts the compressor on this
buffer. -/
theorem claim_C7_compression_transparency (bs : List Nat)
    (compress : List Nat → List Nat) (decompress : List Nat → Except Unit (List Nat))
    (pv : Value) (hb : ∀ b ∈ bs, b < 256) (hcb : ∀ b ∈ compress bs, b < 256)
    (hinv : decompress (compress bs) = .ok bs) :
    decode_peaks decompress
      [("compressionType", Value.str (strCodes ("zlib"))), ("precision", pv)]
      (b64encode (compress bs)) =
    decode_peaks decompress [("precision", pv)] (b64encode bs) := by
  have hpeq : precChoice
      [("compressionType", Value.str (strCodes ("zlib"))), ("precision", pv)] =
      precChoice [("precision", pv)] := by
    simp [precChoice, dget]
  obtain ⟨p, hp⟩ : ∃ p, precChoice [("precision", pv)] = Except.ok p := by
    cases pv <;> exact ⟨_, rfl⟩
  rw [decode_peaks_encode decompress
    [("compressionType", Value.str (strCodes ("zlib"))), ("precision", pv)]
    (compress bs) bs hcb (inflate_zlib _ _ _ _ rfl hinv) p (hpeq.trans hp)]
  rw [decode_peaks_encode decompress [("precision", pv)] bs bs hb
    (inflate_of_not_zlib _ _ _ (by intro s hs; simp [dget] at hs)) p hp]

/-- Witness for the compression-transparency claim at a four-byte
buffer with the identity compression pair. -/
theorem claim_C7_transparency_witness :
    decode_peaks Except.ok
      [("compressionType", Value.str (strCodes ("zlib"))),
       ("precision", Value.str (strCodes ("32")))]
      (b64encode ((fun l => l) [0, 0, 0, 0])) =
    decode_peaks Except.ok [("precision", Value.str (strCodes ("32")))]
      (b64encode [0, 0, 0, 0]) :=
  claim_C7_compression_transparency [0, 0, 0, 0] (fun l => l) Except.ok
    (Value.str (strCodes ("32"))) (by decide) (by decide) rfl

/-- The info dict layouts quantified over by the claim about
non-zlib compression metadata: an optional compressionType entry
followed by the precision entry. -/
def mkInfo : Option Value → Value → Info
  | none, pv => [("precision", pv)]
  | some v, pv => [("compressionType", v), ("precision", pv)]

/-- Claim C10: any compressionType value other than exactly the string
zlib — including an absent entry and non-string values — is treated as
no compression: the decode proceeds on the base64-decoded bytes as-is,
never calling the decompressor (the two sides may even carry different
decompressors) and never raising an unsupported-compression error. -/
theorem claim_C10_non_zlib_ignored (d1 d2 : List Nat → Except Unit (List Nat))
    (cv : Option Value) (pv : Value) (pd : List Nat)
    (h : ∀ s : List Nat, cv = some (Value.str s) → s ≠ strCodes ("zlib")) :
    decode_peaks d1 (mkInfo cv pv) pd = decode_peaks d2 [("precision", pv)] pd := by
  unfold decode_peaks
  by_cases hpd : ∀ c ∈ pd, c < 128
  · rw [if_pos hpd, if_pos hpd]
    cases hb : b64decode pd with
    | error e => rfl
    | ok data0 =>
        have h1 : inflate d1 (mkInfo cv pv) data0 = .ok data0 := by
          refine inflate_of_not_zlib _ _ _ ?_
          intro s hs
          cases cv with
          | none => simp [mkInfo, dget] at hs
          | some v =>
              simp [mkInfo, dget] at hs
              exact h s (by rw [hs])
        have h2 : inflate d2 [("precision", pv)] data0 = .ok data0 := by
          refine inflate_of_not_zlib _ _ _ ?_
          intro s hs
          simp [dget] at hs
        have h3 : precChoice (mkInfo cv pv) = precChoice [("precision", pv)] := by
          cases cv <;> simp [mkInfo, precChoice, dget]
        simp only [h1, h2, h3]
  · rw [if_neg hpd, if_neg hpd]

/-- Witness for the C10 claim with compressionType gzip and two
different decompressors, at a concrete one-byte payload. -/
theorem claim_C10_non_zlib_witness :
    decode_peaks (fun _ => .error ())
      (mkInfo (some (Value.str (strCodes ("gzip")))) (Value.str (strCodes ("32"))))
      (strCodes ("QQ==")) =
    decode_peaks Except.ok [("precision", Value.str (strCodes ("32")))]
      (strCodes ("QQ==")) :=
  claim_C10_non_zlib_ignored (fun _ => .error ()) Except.ok
    (some (Value.str (strCodes ("gzip")))) (Value.str (strCodes ("32")))
    (strCodes ("QQ==")) (by
      intro s hs
      injection hs with h1
      injection h1 with h2
      rw [← h2]
      decide)

/-! ### The record-assembly claims -/

/-- Claim C5: the specification demands that, when the peaks field is a
structured child-record, its arrays be copied up, and that absent
arrays be replaced by well-defined empty arrays rather than failing the
assembly.  The copy-up succeeds when both entries are present (first
conjunct), but when an entry is absent the except-branch calls
np.array() with no arguments, which raises TypeError and fails the
whole assembly (second conjunct): the code does not implement the
empty-array substitution the claim describes. -/
theorem claim_C5_nested_peaks :
    get_info_smart_post Except.ok
      [("peaks", Value.list [Value.dict
        [("m/z array", Value.arr [7]), ("intensity array", Value.arr [9])]])] =
      .ok [("m/z array", Value.arr [7]), ("intensity array", Value.arr [9])]
    ∧ get_info_smart_post Except.ok [("peaks", Value.list [Value.dict []])] =
        .error PyError.typeError :=
  ⟨rfl, rfl⟩

theorem dropWhile_all_false {p : Nat → Bool} :
    ∀ l : List Nat, (∀ x ∈ l, p x = false) → l.dropWhile p = l
  | [], _ => rfl
  | c :: rest, h => List.dropWhile_cons_of_neg (by simp [h c (by simp)])

theorem strip_pts (core : List Nat) (h : ∀ c ∈ core, ¬(c = 80 ∨ c = 84 ∨ c = 83)) :
    stripChars [80, 84, 83] (strCodes ("PT") ++ core ++ strCodes ("S")) = core := by
  have hp : ∀ c ∈ core, (decide (c ∈ ([80, 84, 83] : List Nat))) = false := by
    intro c hc
    simpa using h c hc
  show stripChars [80, 84, 83] (80 :: 84 :: (core ++ [83])) = core
  unfold stripChars
  rw [List.dropWhile_cons_of_pos (by decide), List.dropWhile_cons_of_pos (by decide)]
  cases core with
  | nil => decide
  | cons c rest =>
      rw [List.cons_append,
        List.dropWhile_cons_of_neg (by
          have hc := h c (by simp)
          push_neg at hc
          simpa using hc)]
      rw [show c :: (rest ++ [83]) = (c :: rest) ++ [83] from rfl]
      rw [List.reverse_append]
      rw [show ([83] : List Nat).reverse ++ (c :: rest).reverse =
            83 :: (c :: rest).reverse from rfl]
      rw [List.dropWhile_cons_of_pos (by decide)]
      rw [dropWhile_all_false _ (by
        intro x hx
        rw [List.mem_reverse] at hx
        exact hp x hx)]
      exact List.reverse_reverse _

/-- Claim C8: a retentionTime field whose value is PT, a core free of
the characters P, T, S, then S, is replaced by the float parsed from
the core: the markers are stripped and the remainder parsed as a
number of seconds. -/
theorem claim_C8_retention_time (core : List Nat) (q : ℚ)
    (hcore : ∀ c ∈ core, ¬(c = 80 ∨ c = 84 ∨ c = 83))
    (hq : pyFloat core = some q) :
    get_info_smart_post Except.ok
      [("retentionTime", Value.str (strCodes ("PT") ++ core ++ strCodes ("S")))] =
      .ok [("retentionTime", Value.float q)] := by
  rw [show get_info_smart_post Except.ok
        [("retentionTime", Value.str (strCodes ("PT") ++ core ++ strCodes ("S")))] =
      (match pyFloat (stripChars [80, 84, 83]
          (strCodes ("PT") ++ core ++ strCodes ("S"))) with
       | some q0 => Except.ok [("retentionTime", Value.float q0)]
       | none => Except.error PyError.valueError) from rfl]
  rw [strip_pts core hcore, hq]

/-- Witness for the retention-time claim at the raw value PT123.45S,
which normalizes to the float 123.45. -/
theorem claim_C8_retention_time_witness :
    pyFloat (strCodes ("123.45")) = some ((123.45 : ℚ))
    ∧ get_info_smart_post Except.ok
        [("retentionTime",
          Value.str (strCodes ("PT") ++ strCodes ("123.45") ++ strCodes ("S")))] =
        .ok [("retentionTime", Value.float (123.45 : ℚ))] := by
  have hq : pyFloat (strCodes ("123.45")) = some ((123.45 : ℚ)) := by
    show pyFloat [49, 50, 51, 46, 52, 53] = some ((123.45 : ℚ))
    rw [show pyFloat [49, 50, 51, 46, 52, 53] =
        some (1 * ((123 : ℚ) + (45 : ℚ) / (10 : ℚ) ^ 2)) from rfl]
    norm_num
  exact ⟨hq, claim_C8_retention_time (strCodes ("123.45")) (123.45 : ℚ) (by decide) hq⟩

/-- The coercion kinds of the design document. -/
inductive FieldKind where
  | boolean
  | integer
  | float
  | charList
  | intList
  | floatList

/-- The static type table: the `_default_schema` attribute of the MzXML
class, lines 54 to 93 of the source (sets transcribed as lists). -/
structure Schema where
  bools : List (String × String)
  charlists : List (String × String)
  floatlists : List (String × String)
  floats : List (String × String)
  intlists : List (String × String)
  ints : List (String × String)
  lists : List String

/-- `_default_schema` of the source. -/
def default_schema : Schema :=
  { bools := [("dataProcessing", "centroided"),
              ("dataProcessing", "chargeDeconvoluted"),
              ("dataProcessing", "deisotoped"),
              ("dataProcessing", "spotIntegration"),
              ("maldi", "collisionGas"),
              ("scan", "centroided"),
              ("scan", "chargeDeconvoluted"),
              ("scan", "deisotoped")]
    charlists := []
    floatlists := []
    floats := [("dataProcessing", "intensityCutoff"),
               ("precursorMz", "precursorIntensity"),
               ("precursorMz", "windowWideness"),
               ("precursorMz", "precursorMz"),
               ("scan", "basePeakIntensity"),
               ("scan", "basePeakMz"),
               ("scan", "cidGasPressure"),
               ("scan", "collisionEnergy"),
               ("scan", "compensationVoltage"),
               ("scan", "endMz"),
               ("scan", "highMz"),
               ("scan", "ionisationEnergy"),
               ("scan", "lowMz"),
               ("scan", "startMz"),
               ("scan", "totIonCurrent")]
    intlists := []
    ints := [("msInstrument", "msInstrumentID"),
             ("peaks", "compressedLen"),
             ("robot", "deadVolume"),
             ("scan", "msInstrumentID"),
             ("scan", "peaksCount"),
             ("scanOrigin", "num")]
    lists := ["dataProcessing", "msInstrument", "parentFile", "peaks",
              "plate", "precursorMz", "scanOrigin", "spot"] }

/-- The type-table lookup of the design document: the field kind
registered for an (element, field) pair, none when unregistered. -/
def kindOf (sch : Schema) (elem field : String) : Option FieldKind :=
  if (elem, field) ∈ sch.bools then some FieldKind.boolean
  else if (elem, field) ∈ sch.ints then some FieldKind.integer
  else if (elem, field) ∈ sch.floats then some FieldKind.float
  else if (elem, field) ∈ sch.charlists then some FieldKind.charList
  else if (elem, field) ∈ sch.intlists then some FieldKind.intList
  else if (elem, field) ∈ sch.floatlists then some FieldKind.floatList
  else none

/-- The Python bool coercion of the design document: case-insensitive
true, false, 1, 0. -/
def pyBool (s : List Nat) : Option Bool :=
  let low := s.map (fun c => if 65 ≤ c ∧ c ≤ 90 then c + 32 else c)
  if low = strCodes ("true") ∨ low = strCodes ("1") then some true
  else if low = strCodes ("false") ∨ low = strCodes ("0") then some false
  else none

/-- Whitespace tokenization for the list-valued kinds. -/
def splitWS (s : List Nat) : List (List Nat) :=
  (s.foldr
    (fun c acc =>
      if c = 32 then [] :: acc
      else
        match acc with
        | [] => [[c]]
        | t :: ts => (c :: t) :: ts)
    []).filter (fun t => ¬t = [])

/-- Modelled from the spec: the ValueCoercer of section 4.2.  The
implementation lives in `pyteomics.xml._get_info`, outside the source
file under verification; per the specification, Boolean accepts
case-insensitive true/false/1/0, Integer and Float use standard decimal
parsing, list kinds coerce each whitespace-delimited token, a coercion
failure is an error, and an unregistered field passes through as a
string. -/
def coerce (kind : Option FieldKind) (raw : List Nat) : Except PyError Value :=
  match kind with
  | none => .ok (Value.str raw)
  | some FieldKind.boolean =>
      (match pyBool raw with
       | some b => .ok (Value.bool b)
       | none => .error .valueError)
  | some FieldKind.integer =>
      (match pyInt raw with
       | some z => .ok (Value.int z)
       | none => .error .valueError)
  | some FieldKind.float =>
      (match pyFloat raw with
       | some q => .ok (Value.float q)
       | none => .error .valueError)
  | some FieldKind.charList =>
      .ok (Value.list ((splitWS raw).map Value.str))
  | some FieldKind.intList =>
      (match (splitWS raw).mapM pyInt with
       | some zs => .ok (Value.list (zs.map Value.int))
       | none => .error .valueError)
  | some FieldKind.floatList =>
      (match (splitWS raw).mapM pyFloat with
       | some qs => .ok (Value.list (qs.map Value.float))
       | none => .error .valueError)

/-- Modelled from the spec: the raw-attribute extraction step of the
RecordAssembler (section 4.4), which the source delegates to
`xml._get_info`: each attribute is coerced according to the type
table. -/
def assembleAttrs (sch : Schema) (elem : String)
    (attrs : List (String × List Nat)) : Except PyError Info :=
  attrs.mapM (fun a => Except.map (fun v => (a.1, v)) (coerce (kindOf sch elem a.1) a.2))

/-- Record assembly: coerce the raw attributes, then apply the
post-processing of `_get_info_smart`. -/
def assemble (decompress : List Nat → Except Unit (List Nat)) (sch : Schema)
    (elem : String) (attrs : List (String × List Nat)) : Except PyError Info :=
  match assembleAttrs sch elem attrs with
  | .error e => .error e
  | .ok info => get_info_smart_post decompress info

theorem dget_setItem_self : ∀ (info : Info) (k : String) (v : Value),
    dget (setItem info k v) k = some v
  | [], k, v => by simp [setItem, dget]
  | (k1, v1) :: rest, k, v => by
      by_cases h : k1 = k
      · simp [setItem, dget, h]
      · simp [setItem, dget, h, dget_setItem_self rest k v]

theorem dget_setItem_ne : ∀ (info : Info) (k k2 : String) (v : Value), k2 ≠ k →
    dget (setItem info k v) k2 = dget info k2
  | [], k, k2, v, h => by
      have h1 : ¬(k = k2) := fun hc => h hc.symm
      simp [setItem, dget, h1]
  | (k1, v1) :: rest, k, k2, v, h => by
      have h0 : ¬(k = k2) := fun hc => h hc.symm
      by_cases h1 : k1 = k
      · subst h1
        simp [setItem, dget, h0]
      · simp only [setItem, if_neg h1, dget]
        by_cases h2 : k1 = k2
        · simp [h2]
        · simp [h2, dget_setItem_ne rest k k2 v h]

/-- Claim C9 counterexample: for an element whose num attribute has no
registered kind in the default type table — scan is such an element,
since only scanOrigin registers num as integer — assembly leaves the
raw text as a string, so the record from a scan element with num 7
holds the string 7 in both fields, not the value 7. -/
theorem claim_C9_counterexample :
    assemble Except.ok default_schema "scan" [("num", strCodes ("7"))] =
      .ok [("num", Value.str (strCodes ("7"))), ("id", Value.str (strCodes ("7")))]
    ∧ Value.str (strCodes ("7")) ≠ Value.int 7 :=
  ⟨rfl, fun h => Value.noConfusion h⟩

/-- Claim C9 as amended: for every element and every raw num text, the
value the type table coerces num to — whatever it is — is copied
unchanged into an id field (first conjunct, at the assembly level);
and for every already-assembled record carrying a num field (and no
peaks or retentionTime field, which the later steps rewrite), the
post-processing adds an id field with the same value while leaving num
in place (second conjunct).  Both fields equal the integer 7 exactly
for elements whose num attribute the table registers as integer, such
as scanOrigin; elements with no registered kind keep the string. -/
theorem claim_C9_amended :
    (∀ (elem : String) (raw : List Nat) (v : Value),
      coerce (kindOf default_schema elem "num") raw = .ok v →
      assemble Except.ok default_schema elem [("num", raw)] =
        .ok [("num", v), ("id", v)])
    ∧ (∀ (info : Info) (v : Value),
      dget info "num" = some v →
      dget info "peaks" = none →
      dget info "retentionTime" = none →
      get_info_smart_post Except.ok info = .ok (setItem info "id" v)
      ∧ dget (setItem info "id" v) "num" = some v
      ∧ dget (setItem info "id" v) "id" = some v) := by
  constructor
  · intro elem raw v hc
    have h1 : assembleAttrs default_schema elem [("num", raw)] = .ok [("num", v)] := by
      unfold assembleAttrs
      rw [List.mapM_cons, hc]
      rfl
    unfold assemble
    rw [h1]
    rfl
  · intro info v hnum hpeaks hret
    have hidnum : ("num" : String) ≠ "id" := by decide
    have hidpeaks : ("peaks" : String) ≠ "id" := by decide
    have hidret : ("retentionTime" : String) ≠ "id" := by decide
    have hp1 : dget (setItem info "id" v) "peaks" = none :=
      (dget_setItem_ne info "id" "peaks" v hidpeaks).trans hpeaks
    have hr1 : dget (setItem info "id" v) "retentionTime" = none :=
      (dget_setItem_ne info "id" "retentionTime" v hidret).trans hret
    refine ⟨?_, (dget_setItem_ne info "id" "num" v hidnum).trans hnum,
      dget_setItem_self info "id" v⟩
    simp only [get_info_smart_post, hnum, hp1, hr1]

/-- Witness for the amended C9 claim: the scanOrigin element (num
registered as integer) with raw text 7 yields num and id both equal to
the integer 7, and the post-processing step aliases the num field of a
two-field record, leaving the rest untouched. -/
theorem claim_C9_amended_witness :
    (coerce (kindOf default_schema "scanOrigin" "num") (strCodes ("7")) =
        .ok (Value.int 7)
     ∧ assemble Except.ok default_schema "scanOrigin" [("num", strCodes ("7"))] =
         .ok [("num", Value.int 7), ("id", Value.int 7)])
    ∧ get_info_smart_post Except.ok
        [("num", Value.int 7), ("lowMz", Value.float 3)] =
        .ok [("num", Value.int 7), ("lowMz", Value.float 3), ("id", Value.int 7)] :=
  ⟨⟨rfl, claim_C9_amended.1 "scanOrigin" (strCodes ("7")) (Value.int 7) rfl⟩,
   (claim_C9_amended.2 [("num", Value.int 7), ("lowMz", Value.float 3)]
     (Value.int 7) rfl rfl rfl).1⟩

end Mzxml
